import Mathlib

/-!
Verification development for the rule-based job-description annotator
(`annotator.py`) of the Data-Engineering-Pipeline repository.

The annotator is embedded shallowly:

* Python strings become `String`; `str.lower()` becomes `pyLower`
  (character-wise ASCII lowercasing).
* The regular expressions used by the annotator fall in a tiny fragment:
  literal characters, the word-boundary assertion `\b`, an optional
  literal character (`'?`, `\.?`), an optional arbitrary character
  (`.?`), and top-level alternation.  `Pat` below is exactly that
  fragment and `reSearch` is Python's `re.search` (existence of a match
  at some position) for it.  A top-level alternation `a|b|c` is embedded
  as a list of patterns, searched with `List.any` — for match existence
  this coincides with searching the alternation.
* Python's `\w` (word character) is embedded as alphanumeric-or-underscore,
  which agrees with Python on ASCII text.
* The float comparison `score >= max_score * 0.7` of
  `predict_job_category` is embedded as `10 * score ≥ 7 * maxScore`;
  for the integer magnitudes reachable here the two comparisons agree
  (IEEE-754 double `m * 0.7` never crosses an integer boundary for such `m`).
* Python dicts become association lists with insertion-order semantics:
  `{**d1, **d2}` keeps the positions of `d1`'s keys, overriding values,
  and appends fresh keys of `d2`.
-/

/-- Python's `str.lower()` on the texts of interest: character-wise ASCII
lowercasing (written over the character list so that it evaluates by kernel
reduction). -/
def pyLower (s : String) : String :=
  ⟨s.data.map Char.toLower⟩

/-- A word character for the `\b` assertion: Python `\w` restricted to ASCII. -/
def isWordChar (c : Char) : Bool :=
  c.isAlphanum || c == '_'

/-- Whether `\b` holds between a previous character (`none` = start of text)
and a next character (`none` = end of text). -/
def isBoundary (prev next : Option Char) : Bool :=
  let w : Option Char → Bool := fun o => match o with
    | some c => isWordChar c
    | none => false
  w prev != w next

/-- One atom of the regex fragment used by `annotator.py`:
a literal character, `.`, an optional literal (`x?`), an optional
arbitrary character (`.?`), or the word-boundary assertion `\b`. -/
inductive PatAtom where
  | lit (c : Char)
  | anyc
  | optLit (c : Char)
  | optAny
  | wb
deriving DecidableEq, Repr

/-- A pattern is a sequence of atoms. -/
abbrev Pat := List PatAtom

/-- Match a pattern against the text starting exactly at the current
position; `prev` is the character just before that position, used by `\b`.
Optional atoms produce both alternatives, so `matchFrom` decides whether
some way of resolving the options matches. -/
def matchFrom : Pat → Option Char → List Char → Bool
  | [], _, _ => true
  | .wb :: ps, prev, text =>
      isBoundary prev text.head? && matchFrom ps prev text
  | .lit c :: ps, _, text =>
      match text with
      | [] => false
      | x :: rest => x == c && matchFrom ps (some x) rest
  | .anyc :: ps, _, text =>
      match text with
      | [] => false
      | x :: rest => x != '\n' && matchFrom ps (some x) rest
  | .optLit c :: ps, prev, text =>
      (match text with
       | [] => false
       | x :: rest => x == c && matchFrom ps (some x) rest)
      || matchFrom ps prev text
  | .optAny :: ps, prev, text =>
      (match text with
       | [] => false
       | x :: rest => x != '\n' && matchFrom ps (some x) rest)
      || matchFrom ps prev text

/-- Search for a match at the current position or at any later one. -/
def searchFrom (ps : Pat) : Option Char → List Char → Bool
  | prev, [] => matchFrom ps prev []
  | prev, c :: rest => matchFrom ps prev (c :: rest) || searchFrom ps (some c) rest

/-- Python's `re.search(pattern, s)` for this fragment, as a Boolean. -/
def reSearch (ps : Pat) (s : String) : Bool :=
  searchFrom ps none s.data

/-- A plain literal pattern: `re.search(s, text)` for a string `s` with
no metacharacters (after unescaping `\.`, `\+`), i.e. substring search. -/
def litPat (s : String) : Pat :=
  s.data.map .lit

/-- A word-boundary-delimited literal keyword: `rf'\b{re.escape(kw)}\b'`. -/
def wbPat (s : String) : Pat :=
  .wb :: s.data.map .lit ++ [.wb]

/-- The `senior_indicators` list of `predict_experience_level`.  Each Python
pattern in it is a literal string (the escapes `sr\.`, `5\+ years`, … denote
the literal characters), so each is a `litPat`. -/
def senior_indicators : List Pat :=
  [litPat "senior", litPat "sr.", litPat "lead", litPat "principal",
   litPat "architect", litPat "5+ years", litPat "8+ years",
   litPat "10+ years", litPat "experienced", litPat "mentor",
   litPat "guide", litPat "strateg", litPat "expert"]

/-- The `entry_indicators` list of `predict_experience_level`. -/
def entry_indicators : List Pat :=
  [litPat "entry", litPat "junior", litPat "jr.", litPat "graduate",
   litPat "0-2 years", litPat "1+ years", litPat "2+ years",
   litPat "fresher", litPat "beginner"]

/-- The for-loop with early return of `predict_experience_level`:
try the patterns in listed order, stopping at the first match. -/
def scanPatterns : List Pat → String → Bool
  | [], _ => false
  | p :: ps, text => if reSearch p text then true else scanPatterns ps text

/-- `predict_experience_level(self, description, title)` from `annotator.py`. -/
def predict_experience_level (description title : String) : String :=
  let text := pyLower (title ++ " " ++ description)
  if scanPatterns senior_indicators text then "senior"
  else if scanPatterns entry_indicators text then "entry"
  else "mid"

/-- The `category_keywords` dict of `predict_job_category`, in insertion
order: backend, frontend, devops, data, mobile, qa. -/
def category_keywords : List (String × List String) :=
  [("backend", ["backend", "server", "api", "microservices", "java",
                "python", "c#", "go", "ruby"]),
   ("frontend", ["frontend", "react", "angular", "vue", "javascript",
                 "css", "html", "ui/ux"]),
   ("devops", ["devops", "aws", "azure", "gcp", "docker", "kubernetes",
               "ci/cd", "infrastructure"]),
   ("data", ["data", "database", "sql", "nosql", "etl", "warehouse",
             "analytics", "big data"]),
   ("mobile", ["mobile", "ios", "android", "swift", "kotlin",
               "react native", "flutter"]),
   ("qa", ["qa", "quality", "test", "selenium", "automation", "testing"])]

/-- The per-category score of `predict_job_category`: the keyword loop adds 1
for every keyword of the category whose `\b…\b` pattern matches the lowered
description text, and the skills loop adds 2 for every skill token that is a
literal member of the category's keyword list. -/
def categoryScore (kws : List String) (text : String)
    (skills : List String) : Nat :=
  let fromText := kws.foldl
    (fun acc kw => if reSearch (wbPat kw) text then acc + 1 else acc) 0
  skills.foldl
    (fun acc sk => if kws.contains sk then acc + 2 else acc) fromText

/-- `max(category_scores.values())`. -/
def maxScoreOf (scores : List (String × Nat)) : Nat :=
  (scores.map Prod.snd).foldl Nat.max 0

/-- `max(category_scores, key=category_scores.get)`: the first key attaining
the maximal value, in insertion order (Python's `max` keeps the earlier
element on ties). -/
def bestCategory (scores : List (String × Nat)) : String :=
  match scores with
  | [] => ""
  | q :: rest => (rest.foldl (fun acc p => if p.2 > acc.2 then p else acc) q).1

/-- The `category_scores` dict of `predict_job_category`, after both scoring
loops have run, in the insertion order of `category_keywords`. -/
def jobScores (description : String) (skills : List String) :
    List (String × Nat) :=
  category_keywords.map (fun p => (p.1, categoryScore p.2 (pyLower description) skills))

/-- `predict_job_category(self, description, skills)` from `annotator.py`.
The float comparison `score >= max_score * 0.7` is embedded exactly as the
rational comparison `7 * maxScore ≤ 10 * score` (see the header note), and
`len(high_score_categories) > 1` as `1 < length` of the filtered list. -/
def predict_job_category (description : String)
    (skills : List String) : String :=
  let scores := jobScores description skills
  let maxScore := maxScoreOf scores
  if maxScore = 0 then "fullstack"
  else if 1 < (scores.filter (fun p => 7 * maxScore ≤ 10 * p.2)).length then
    "fullstack"
  else bestCategory scores

/-- The branches of the regex `\bph\.?d\b|\bdoctorate\b`. -/
def phd_patterns : List Pat :=
  [[.wb, .lit 'p', .lit 'h', .optLit '.', .lit 'd', .wb],
   wbPat "doctorate"]

/-- The branches of the regex `\bmaster\'?s\b|\bms\b|\bm\.?s\b|\bma\b`. -/
def masters_patterns : List Pat :=
  [.wb :: litPat "master" ++ [.optLit '\'', .lit 's', .wb],
   wbPat "ms",
   [.wb, .lit 'm', .optLit '.', .lit 's', .wb],
   wbPat "ma"]

/-- The branches of the regex
`\bbachelor\'?s\b|\bbs\b|\bb\.?s\b|\bba\b|\bdegree\b`. -/
def bachelors_patterns : List Pat :=
  [.wb :: litPat "bachelor" ++ [.optLit '\'', .lit 's', .wb],
   wbPat "bs",
   [.wb, .lit 'b', .optLit '.', .lit 's', .wb],
   wbPat "ba",
   wbPat "degree"]

/-- `predict_education(self, description)` from `annotator.py`: an ordered
exclusive cascade of three alternation regexes, first match wins. -/
def predict_education (description : String) : String :=
  let text := (pyLower description)
  if phd_patterns.any (fun p => reSearch p text) then "phd"
  else if masters_patterns.any (fun p => reSearch p text) then "masters"
  else if bachelors_patterns.any (fun p => reSearch p text) then "bachelors"
  else "none"

/-- The branches of the regex `\bremote\b|\bwork from home\b|\bwfh\b`. -/
def remote_yes_patterns : List Pat :=
  [wbPat "remote", wbPat "work from home", wbPat "wfh"]

/-- The branches of the regex `\bhybrid\b|\bflexible\b|\bpartial\b`. -/
def remote_hybrid_patterns : List Pat :=
  [wbPat "hybrid", wbPat "flexible", wbPat "partial"]

/-- The branches of the regex `\bon.?site\b|\boffice\b|\bin.?person\b`
(the unescaped `.` is an arbitrary-character wildcard). -/
def remote_no_patterns : List Pat :=
  [.wb :: litPat "on" ++ .optAny :: litPat "site" ++ [.wb],
   wbPat "office",
   .wb :: litPat "in" ++ .optAny :: litPat "person" ++ [.wb]]

/-- `predict_remote(self, description, location)` from `annotator.py`. -/
def predict_remote (description location : String) : String :=
  let text := pyLower (description ++ " " ++ location)
  if remote_yes_patterns.any (fun p => reSearch p text) then "yes"
  else if remote_hybrid_patterns.any (fun p => reSearch p text) then "hybrid"
  else if remote_no_patterns.any (fun p => reSearch p text) then "no"
  else "unknown"

/-- The `annotation_schema` dict of `JobDescriptionAnnotator.__init__`. -/
def annotation_schema : List (String × List String) :=
  [("experience_level", ["entry", "mid", "senior", "lead"]),
   ("job_category", ["backend", "frontend", "fullstack", "devops", "data",
                     "mobile", "qa"]),
   ("education_required", ["none", "bachelors", "masters", "phd"]),
   ("remote_possible", ["yes", "no", "hybrid"])]

/-- A Python value as it occurs in the cleaned/annotated records:
a string, a list of strings (the `skills` field), or an integer
(`word_count`, `char_count`). -/
inductive PyVal where
  | vStr (s : String)
  | vList (l : List String)
  | vInt (n : Int)
deriving DecidableEq, Repr

/-- A Python dict with string keys, as an insertion-ordered association
list (Python dicts preserve insertion order and have unique keys). -/
abbrev Record := List (String × PyVal)

/-- `d[k]` as a partial lookup. -/
def dictGet (d : Record) (k : String) : Option PyVal :=
  (d.find? (fun p => p.1 == k)).map Prod.snd

/-- `d[k] = v` on an insertion-ordered dict: an existing key keeps its
position and gets the new value; a fresh key is appended. -/
def dictSet (d : Record) (k : String) (v : PyVal) : Record :=
  if d.any (fun p => p.1 == k) then
    d.map (fun p => if p.1 == k then (k, v) else p)
  else d ++ [(k, v)]

/-- `{**d1, **d2}`: start from `d1` and set each binding of `d2` in order. -/
def dictMerge (d1 d2 : Record) : Record :=
  d2.foldl (fun acc p => dictSet acc p.1 p.2) d1

/-- The loop body of `annotate_dataset` for one item: read the four required
fields, compute the four predictions plus the provenance tag, and build
`{**item, **annotations}`.  `none` models the `KeyError`/`TypeError` raised
when a required field is absent or has the wrong type. -/
def annotate_item (item : Record) : Option Record :=
  match dictGet item "description", dictGet item "title",
        dictGet item "skills", dictGet item "location" with
  | some (.vStr description), some (.vStr title),
    some (.vList skills), some (.vStr location) =>
      let annotations : Record :=
        [("experience_level",
            .vStr (predict_experience_level description title)),
         ("job_category", .vStr (predict_job_category description skills)),
         ("education_required", .vStr (predict_education description)),
         ("remote_possible", .vStr (predict_remote description location)),
         ("annotation_method", .vStr "rule_based")]
      some (dictMerge item annotations)
  | _, _, _, _ => none

/-- `annotate_dataset(self, cleaned_data)` from `annotator.py`: one output
record per input record, in input order; `none` if any record raises. -/
def annotate_dataset (cleaned_data : List Record) : Option (List Record) :=
  cleaned_data.mapM annotate_item

/-- The outcome of `open(filename)` followed by `json.load` for the
cleaned-data file: the file is absent (`FileNotFoundError`), present but not
valid JSON (`json.JSONDecodeError`), or a valid list of records. -/
inductive FileState where
  | absent
  | malformed
  | valid (records : List Record)

/-- `load_cleaned_data(self, filename)` from `annotator.py`: the
`try/except` catches only `FileNotFoundError` (returning `[]`); a JSON
decoding error propagates, modelled as `Except.error`. -/
def load_cleaned_data : FileState → Except String (List Record)
  | .absent => .ok []
  | .malformed => .error "json.decoder.JSONDecodeError"
  | .valid records => .ok records

/-- The record-processing skeleton of `main()` from `annotator.py`: load the
cleaned data; if the result is empty, report zero records and return early;
otherwise annotate and report how many records were produced.  An uncaught
exception anywhere is `Except.error`. -/
def main_records_processed (fs : FileState) : Except String Nat :=
  match load_cleaned_data fs with
  | .error e => .error e
  | .ok cleaned_data =>
      if cleaned_data.isEmpty then .ok 0
      else
        match annotate_dataset cleaned_data with
        | none => .error "KeyError"
        | some annotated_data => .ok annotated_data.length

/-- The contract of `annotate_dataset` on one record: the four required
fields are present with the expected types (strings, and a string list for
`skills`). -/
def hasRequiredFields (r : Record) : Bool :=
  match dictGet r "description", dictGet r "title",
        dictGet r "skills", dictGet r "location" with
  | some (.vStr _), some (.vStr _), some (.vList _), some (.vStr _) => true
  | _, _, _, _ => false

/-- The five field names that `annotate_dataset` writes into each record. -/
def annotation_field_names : List String :=
  ["experience_level", "job_category", "education_required",
   "remote_possible", "annotation_method"]

/-- A concrete cleaned record used to instantiate general statements. -/
def sampleRecord : Record :=
  [("title", .vStr "developer"), ("description", .vStr "we build things"),
   ("skills", .vList []), ("location", .vStr "pune"),
   ("company", .vStr "acme")]

/-- A concrete record that already carries an `annotation_method` field;
`{**item, **annotations}` silently overwrites it. -/
def collidingRecord : Record :=
  [("title", .vStr "developer"), ("description", .vStr "we build things"),
   ("skills", .vList []), ("location", .vStr "pune"),
   ("annotation_method", .vStr "manual")]

/-! ### Helper lemmas -/

/-- The early-return loop over a pattern list agrees with `List.any`. -/
theorem scanPatterns_eq_any (ps : List Pat) (t : String) :
    scanPatterns ps t = ps.any (fun p => reSearch p t) := by
  induction ps with
  | nil => rfl
  | cons p ps ih =>
      rw [scanPatterns, List.any_cons, ih]
      cases reSearch p t <;> simp

/-- A counting fold with weight `w` computes `w` times a `countP`. -/
theorem foldl_count_weight {α : Type} (p : α → Bool) (w : Nat) :
    ∀ (l : List α) (n : Nat),
      l.foldl (fun acc x => if p x then acc + w else acc) n
        = n + w * l.countP p := by
  intro l
  induction l with
  | nil => intro n; simp
  | cons a l ih =>
      intro n
      simp only [List.foldl_cons, List.countP_cons, ih]
      cases h : p a
      · simp
      · simp; ring

/-- The two scoring loops of `predict_job_category`, written as counts:
one point per matching keyword pattern, two points per skill token that is a
member of the keyword list. -/
theorem categoryScore_eq (kws : List String) (text : String)
    (skills : List String) :
    categoryScore kws text skills
      = kws.countP (fun kw => reSearch (wbPat kw) text)
        + 2 * skills.countP (fun sk => kws.contains sk) := by
  unfold categoryScore
  rw [foldl_count_weight, foldl_count_weight]
  ring

/-- `max` of a list of zero values is zero. -/
theorem maxScoreOf_eq_zero (scores : List (String × Nat))
    (h : ∀ p ∈ scores, p.2 = 0) : maxScoreOf scores = 0 := by
  unfold maxScoreOf
  induction scores with
  | nil => rfl
  | cons a l ih =>
      have ha : a.2 = 0 := h a (List.mem_cons_self a l)
      simp only [List.map_cons, List.foldl_cons, ha, Nat.max_self]
      exact ih (fun p hp => h p (List.mem_cons_of_mem a hp))

/-- Matching a pure-literal pattern at the current position is exactly the
prefix relation; word boundaries and options never occur in it. -/
theorem matchFrom_litPat (l : List Char) :
    ∀ (prev : Option Char) (t : List Char),
      matchFrom (l.map .lit) prev t = true ↔ l <+: t := by
  induction l with
  | nil => intro prev t; simp [matchFrom]
  | cons c l ih =>
      intro prev t
      cases t with
      | nil =>
          simp only [List.map_cons, matchFrom]
          simp
      | cons x rest =>
          simp only [List.map_cons, matchFrom, Bool.and_eq_true, beq_iff_eq,
            ih, List.cons_prefix_cons]
          exact and_congr_left (fun _ => eq_comm)

/-- Searching a pure-literal pattern from the current position is a prefix
match of some suffix of the remaining text. -/
theorem searchFrom_litPat (l : List Char) :
    ∀ (prev : Option Char) (t : List Char),
      searchFrom (l.map .lit) prev t = true ↔ ∃ n, l <+: t.drop n := by
  intro prev t
  induction t generalizing prev with
  | nil =>
      rw [searchFrom]
      simp [matchFrom_litPat]
  | cons x rest ih =>
      rw [searchFrom]
      simp only [Bool.or_eq_true, matchFrom_litPat, ih]
      constructor
      · rintro (h | ⟨n, hn⟩)
        · exact ⟨0, by simpa using h⟩
        · exact ⟨n + 1, by simpa using hn⟩
      · rintro ⟨n, hn⟩
        cases n with
        | zero => exact Or.inl (by simpa using hn)
        | succ m => exact Or.inr ⟨m, by simpa using hn⟩

/-- `re.search` of a literal pattern (no metacharacters, no anchors) is
plain substring containment. -/
theorem reSearch_litPat (s t : String) :
    reSearch (litPat s) t = true ↔ s.data <:+: t.data := by
  rw [reSearch, litPat, searchFrom_litPat]
  constructor
  · rintro ⟨n, hn⟩
    exact hn.isInfix.trans (List.drop_suffix n t.data).isInfix
  · rintro ⟨pre, post, hsplit⟩
    refine ⟨pre.length, ?_⟩
    rw [← hsplit, List.append_assoc, List.drop_left]
    exact List.prefix_append s.data post

/-- If some senior indicator matches the lowered title-description text,
`predict_experience_level` short-circuits to `"senior"`. -/
theorem predict_senior_of_match (description title : String)
    (h : ∃ p ∈ senior_indicators,
      reSearch p (pyLower (title ++ " " ++ description)) = true) :
    predict_experience_level description title = "senior" := by
  have : scanPatterns senior_indicators
      (pyLower (title ++ " " ++ description)) = true := by
    rw [scanPatterns_eq_any, List.any_eq_true]
    exact h
  simp [predict_experience_level, this]

/-! ### Claim theorems -/

/-- C4: `predict_experience_level` checks the senior indicators first over
the case-folded concatenation of title and description, returning `"senior"`
as soon as one matches (so a text with both a senior and an entry indicator
is `"senior"`); only if none match does it check the entry indicators,
returning `"entry"` on a match; otherwise — including on empty inputs — it
returns `"mid"`. -/
theorem c4_experience_cascade (description title : String) :
    ((∃ p ∈ senior_indicators,
        reSearch p (pyLower (title ++ " " ++ description)) = true) →
      predict_experience_level description title = "senior") ∧
    ((∀ p ∈ senior_indicators,
        reSearch p (pyLower (title ++ " " ++ description)) = false) →
      (∃ p ∈ entry_indicators,
        reSearch p (pyLower (title ++ " " ++ description)) = true) →
      predict_experience_level description title = "entry") ∧
    ((∀ p ∈ senior_indicators,
        reSearch p (pyLower (title ++ " " ++ description)) = false) →
      (∀ p ∈ entry_indicators,
        reSearch p (pyLower (title ++ " " ++ description)) = false) →
      predict_experience_level description title = "mid") ∧
    predict_experience_level "" "" = "mid" := by
  refine ⟨predict_senior_of_match description title, ?_, ?_, by decide⟩
  · intro hs he
    have hs' : scanPatterns senior_indicators
        (pyLower (title ++ " " ++ description)) = false := by
      rw [scanPatterns_eq_any, List.any_eq_false]
      intro p hp
      simp [hs p hp]
    have he' : scanPatterns entry_indicators
        (pyLower (title ++ " " ++ description)) = true := by
      rw [scanPatterns_eq_any, List.any_eq_true]
      exact he
    simp [predict_experience_level, hs', he']
  · intro hs he
    have hs' : scanPatterns senior_indicators
        (pyLower (title ++ " " ++ description)) = false := by
      rw [scanPatterns_eq_any, List.any_eq_false]
      intro p hp
      simp [hs p hp]
    have he' : scanPatterns entry_indicators
        (pyLower (title ++ " " ++ description)) = false := by
      rw [scanPatterns_eq_any, List.any_eq_false]
      intro p hp
      simp [he p hp]
    simp [predict_experience_level, hs', he']

/-- C4 witness: a text carrying both a senior indicator and an entry
indicator is classified `"senior"`. -/
theorem c4_witness :
    predict_experience_level "senior backend engineer with 2+ years" "job"
      = "senior" :=
  (c4_experience_cascade "senior backend engineer with 2+ years" "job").1
    (by decide)

/-- C8: `predict_experience_level` never returns `"lead"` — its result is
always one of entry, mid, senior — although `"lead"` is declared in the
`experience_level` entry of the annotation schema. -/
theorem c8_lead_unreachable (description title : String) :
    predict_experience_level description title ≠ "lead" ∧
    predict_experience_level description title ∈ ["entry", "mid", "senior"] ∧
    ("experience_level", ["entry", "mid", "senior", "lead"])
      ∈ annotation_schema := by
  have tri : predict_experience_level description title = "senior" ∨
      predict_experience_level description title = "entry" ∨
      predict_experience_level description title = "mid" := by
    simp only [predict_experience_level]
    split
    · exact Or.inl rfl
    · split
      · exact Or.inr (Or.inl rfl)
      · exact Or.inr (Or.inr rfl)
  obtain h | h | h := tri <;> rw [h] <;> exact ⟨by decide, by decide, by decide⟩

/-- C8 witness: instantiation at a concrete record. -/
theorem c8_witness :
    predict_experience_level "we build things" "developer" ≠ "lead" :=
  (c8_lead_unreachable "we build things" "developer").1

/-- C10: the senior indicators are plain substring searches without word
boundaries, so any text containing `"experienced"` or `"guide"` — even
inside a longer word such as `"inexperienced"` or `"misguided"` — makes
`predict_experience_level` return `"senior"`. -/
theorem c10_substring_senior (description title : String) :
    ("experienced".data <:+: (pyLower (title ++ " " ++ description)).data →
      predict_experience_level description title = "senior") ∧
    ("guide".data <:+: (pyLower (title ++ " " ++ description)).data →
      predict_experience_level description title = "senior") ∧
    predict_experience_level "open to inexperienced applicants" "" = "senior" ∧
    predict_experience_level "do not be misguided by hype" "" = "senior" := by
  refine ⟨?_, ?_, by decide, by decide⟩
  · intro h
    exact predict_senior_of_match _ _
      ⟨litPat "experienced", by decide, (reSearch_litPat _ _).mpr h⟩
  · intro h
    exact predict_senior_of_match _ _
      ⟨litPat "guide", by decide, (reSearch_litPat _ _).mpr h⟩

/-- C10 witness: `"inexperienced"` contains the senior indicator
`"experienced"` as a substring, so the text is classified `"senior"`. -/
theorem c10_witness :
    predict_experience_level "for inexperienced staff" "" = "senior" :=
  (c10_substring_senior "for inexperienced staff" "").1 (by decide)

/-- C5: `predict_education` is an ordered exclusive cascade on the lowered
description — PhD patterns first, then master's, then bachelor's, else
`"none"`; a text with both master's and bachelor's terms is `"masters"`,
and a text with no education terms is `"none"`. -/
theorem c5_education_cascade (description : String) :
    (phd_patterns.any (fun p => reSearch p (pyLower description)) = true →
      predict_education description = "phd") ∧
    (phd_patterns.any (fun p => reSearch p (pyLower description)) = false →
      masters_patterns.any (fun p => reSearch p (pyLower description)) = true →
      predict_education description = "masters") ∧
    (phd_patterns.any (fun p => reSearch p (pyLower description)) = false →
      masters_patterns.any (fun p => reSearch p (pyLower description)) = false →
      bachelors_patterns.any (fun p => reSearch p (pyLower description)) = true →
      predict_education description = "bachelors") ∧
    (phd_patterns.any (fun p => reSearch p (pyLower description)) = false →
      masters_patterns.any (fun p => reSearch p (pyLower description)) = false →
      bachelors_patterns.any (fun p => reSearch p (pyLower description)) = false →
      predict_education description = "none") ∧
    predict_education "requires a masters degree or bachelors degree"
      = "masters" ∧
    predict_education "join our team and build things" = "none" := by
  refine ⟨?_, ?_, ?_, ?_, by decide, by decide⟩
  · intro h1
    simp [predict_education, h1]
  · intro h1 h2
    simp [predict_education, h1, h2]
  · intro h1 h2 h3
    simp [predict_education, h1, h2, h3]
  · intro h1 h2 h3
    simp [predict_education, h1, h2, h3]

/-- C5 witness: a PhD term takes priority over everything below it. -/
theorem c5_witness :
    predict_education "ms or phd preferred" = "phd" :=
  (c5_education_cascade "ms or phd preferred").1 (by decide)

/-- C6: `predict_remote` is an ordered exclusive cascade on the lowered
concatenation of description and location — remote terms, then hybrid
terms, then on-site terms, else `"unknown"`; `"unknown"` is reachable even
though the `remote_possible` schema entry declares only yes/no/hybrid. -/
theorem c6_remote_cascade (description location : String) :
    (remote_yes_patterns.any
        (fun p => reSearch p (pyLower (description ++ " " ++ location))) = true →
      predict_remote description location = "yes") ∧
    (remote_yes_patterns.any
        (fun p => reSearch p (pyLower (description ++ " " ++ location))) = false →
      remote_hybrid_patterns.any
        (fun p => reSearch p (pyLower (description ++ " " ++ location))) = true →
      predict_remote description location = "hybrid") ∧
    (remote_yes_patterns.any
        (fun p => reSearch p (pyLower (description ++ " " ++ location))) = false →
      remote_hybrid_patterns.any
        (fun p => reSearch p (pyLower (description ++ " " ++ location))) = false →
      remote_no_patterns.any
        (fun p => reSearch p (pyLower (description ++ " " ++ location))) = true →
      predict_remote description location = "no") ∧
    (remote_yes_patterns.any
        (fun p => reSearch p (pyLower (description ++ " " ++ location))) = false →
      remote_hybrid_patterns.any
        (fun p => reSearch p (pyLower (description ++ " " ++ location))) = false →
      remote_no_patterns.any
        (fun p => reSearch p (pyLower (description ++ " " ++ location))) = false →
      predict_remote description location = "unknown") ∧
    predict_remote "" "" = "unknown" ∧
    ("remote_possible", ["yes", "no", "hybrid"]) ∈ annotation_schema ∧
    "unknown" ∉ ["yes", "no", "hybrid"] := by
  refine ⟨?_, ?_, ?_, ?_, by decide, by decide, by decide⟩
  · intro h1
    simp [predict_remote, h1]
  · intro h1 h2
    simp [predict_remote, h1, h2]
  · intro h1 h2 h3
    simp [predict_remote, h1, h2, h3]
  · intro h1 h2 h3
    simp [predict_remote, h1, h2, h3]

/-- C6 witness: an explicit remote term wins the cascade. -/
theorem c6_witness :
    predict_remote "fully remote role" "anywhere" = "yes" :=
  (c6_remote_cascade "fully remote role" "anywhere").1 (by decide)

/-- C1: whenever the maximal category score is positive and at least two
categories reach 70% of it, `predict_job_category` returns `"fullstack"`,
regardless of whether the maximum is held uniquely. -/
theorem c1_multi_domain_override (description : String) (skills : List String)
    (hpos : 0 < maxScoreOf (jobScores description skills))
    (hhigh : 2 ≤ ((jobScores description skills).filter
        (fun p => 7 * maxScoreOf (jobScores description skills) ≤ 10 * p.2)).length) :
    predict_job_category description skills = "fullstack" := by
  have h0 : ¬ maxScoreOf (jobScores description skills) = 0 := by omega
  have h1 : 1 < ((jobScores description skills).filter
      (fun p => 7 * maxScoreOf (jobScores description skills) ≤ 10 * p.2)).length := by
    omega
  simp only [predict_job_category]
  rw [if_neg h0, if_pos h1]

/-- C1 witness: frontend uniquely holds the maximum (4 against devops's 3),
yet devops clears the 70% threshold, so the override fires. -/
theorem c1_witness :
    0 < maxScoreOf
        (jobScores "react angular vue javascript docker kubernetes aws" []) ∧
    predict_job_category "react angular vue javascript docker kubernetes aws" []
      = "fullstack" :=
  ⟨by decide,
   c1_multi_domain_override "react angular vue javascript docker kubernetes aws"
     [] (by decide) (by decide)⟩

/-- C2: every category's score is the count of its keywords matching the
lowered description as word-boundary patterns, plus twice the count of
skill tokens that are literal members of its keyword list; hence appending
the skill `"python"` raises the backend score by exactly 2. -/
theorem c2_score_formula (description : String) (skills : List String) :
    ((jobScores description skills).map Prod.snd
        = category_keywords.map (fun p =>
            p.2.countP (fun kw => reSearch (wbPat kw) (pyLower description))
              + 2 * skills.countP (fun sk => p.2.contains sk))) ∧
    (∀ cat kws, (cat, kws) ∈ category_keywords →
      kws.contains "python" = true →
      categoryScore kws (pyLower description) (skills ++ ["python"])
        = categoryScore kws (pyLower description) skills + 2) := by
  constructor
  · simp only [jobScores, List.map_map]
    congr 1
    funext p
    simp [Function.comp, categoryScore_eq]
  · intro cat kws hmem hpy
    have h1 : List.countP (fun sk => kws.contains sk) ["python"] = 1 := by
      simp [List.countP_cons, hpy]
      simpa using hpy
    rw [categoryScore_eq, categoryScore_eq, List.countP_append, h1]
    ring

/-- C2 witness: with identical description text, adding `"python"` to the
skills list raises the backend score by exactly 2. -/
theorem c2_witness :
    categoryScore
        ["backend", "server", "api", "microservices", "java", "python",
         "c#", "go", "ruby"]
        (pyLower "api work") (["aws"] ++ ["python"])
      = categoryScore
          ["backend", "server", "api", "microservices", "java", "python",
           "c#", "go", "ruby"]
          (pyLower "api work") ["aws"] + 2 :=
  (c2_score_formula "api work" ["aws"]).2 "backend"
    ["backend", "server", "api", "microservices", "java", "python",
     "c#", "go", "ruby"] (by decide) (by decide)

/-- C3: when no category keyword matches the description and no skill token
is a member of any keyword list, every score is 0 and
`predict_job_category` falls back to `"fullstack"`; in particular on the
no-signal example text with empty skills. -/
theorem c3_no_signal_fullstack (description : String) (skills : List String)
    (hkw : ∀ p ∈ category_keywords, ∀ kw ∈ p.2,
      reSearch (wbPat kw) (pyLower description) = false)
    (hsk : ∀ p ∈ category_keywords, ∀ sk ∈ skills,
      p.2.contains sk = false) :
    predict_job_category description skills = "fullstack" ∧
    predict_job_category "Join our team and help us build things." []
      = "fullstack" := by
  constructor
  · have hz : maxScoreOf (jobScores description skills) = 0 := by
      apply maxScoreOf_eq_zero
      intro p hp
      simp only [jobScores, List.mem_map] at hp
      obtain ⟨q, hq, rfl⟩ := hp
      rw [categoryScore_eq]
      have h1 : q.2.countP (fun kw => reSearch (wbPat kw) (pyLower description)) = 0 := by
        rw [List.countP_eq_zero]
        intro kw hkw2
        simp [hkw q hq kw hkw2]
      have h2 : skills.countP (fun sk => q.2.contains sk) = 0 := by
        rw [List.countP_eq_zero]
        intro sk hsk2
        simpa using hsk q hq sk hsk2
      omega
    simp only [predict_job_category]
    rw [if_pos hz]
  · decide

/-- C3 witness: the no-signal example text with empty skills. -/
theorem c3_witness :
    predict_job_category "Join our team and help us build things." []
      = "fullstack" :=
  (c3_no_signal_fullstack "Join our team and help us build things." []
    (by decide) (by decide)).1

/-- C9 counterexample: the `try/except` of `load_cleaned_data` catches only
`FileNotFoundError`, so a malformed (non-JSON-decodable) cleaned-data file
makes both `load_cleaned_data` and the driver raise instead of returning an
empty list — refuting the claim for the malformed case. -/
theorem c9_counterexample :
    load_cleaned_data .malformed
      = .error "json.decoder.JSONDecodeError" ∧
    main_records_processed .malformed
      = .error "json.decoder.JSONDecodeError" :=
  ⟨rfl, rfl⟩

/-- C9 amended: when the cleaned-data file is absent, `load_cleaned_data`
returns an empty list and the driver reports zero records processed and
exits without raising; more generally an empty load short-circuits the run
before annotation. -/
theorem c9_absent_returns_empty :
    load_cleaned_data .absent = .ok ([] : List Record) ∧
    main_records_processed .absent = .ok 0 ∧
    (∀ fs : FileState, load_cleaned_data fs = .ok ([] : List Record) →
      main_records_processed fs = .ok 0) := by
  refine ⟨rfl, rfl, ?_⟩
  intro fs h
  cases fs with
  | absent => rfl
  | malformed => simp [load_cleaned_data] at h
  | valid rs =>
      simp only [load_cleaned_data, Except.ok.injEq] at h
      subst h
      rfl

/-- C9 witness: instantiation of the amended statement at the absent file. -/
theorem c9_witness :
    main_records_processed .absent = .ok 0 :=
  c9_absent_returns_empty.2.2 FileState.absent rfl

/-! ### Dictionary lemmas for the orchestration claim -/

/-- Replacing the value stored under `k'` does not affect lookups of a
different key `k`. -/
theorem find?_map_replace (d : Record) (k k' : String) (v : PyVal)
    (hne : k ≠ k') :
    (d.map (fun p => if p.1 == k' then (k', v) else p)).find?
        (fun p => p.1 == k)
      = d.find? (fun p => p.1 == k) := by
  induction d with
  | nil => rfl
  | cons a d ih =>
      simp only [List.map_cons]
      rw [List.find?_cons, List.find?_cons]
      by_cases h : a.1 = k'
      · rw [if_pos (by simp [h])]
        have h2 : ((k', v).1 == k) = false := by
          simp
          exact fun hh => hne hh.symm
        have h3 : (a.1 == k) = false := by
          simp [h]
          exact fun hh => hne hh.symm
        simp only [h2, h3, ih]
      · rw [if_neg (by simp [h])]
        cases hc : (a.1 == k) <;> simp only [hc, ih]

/-- After replacing the value stored under `k'`, looking up `k'` finds the
new value, provided `k'` was present. -/
theorem find?_map_replace_self (d : Record) (k' : String) (v : PyVal)
    (hmem : d.any (fun p => p.1 == k') = true) :
    (d.map (fun p => if p.1 == k' then (k', v) else p)).find?
        (fun p => p.1 == k') = some (k', v) := by
  induction d with
  | nil => simp at hmem
  | cons a d ih =>
      simp only [List.map_cons]
      rw [List.find?_cons]
      by_cases h : a.1 = k'
      · rw [if_pos (by simp [h])]
        simp
      · rw [if_neg (by simp [h])]
        have h2 : (a.1 == k') = false := by simp [h]
        simp only [h2]
        apply ih
        simpa [h2] using hmem

/-- Setting key `k'` then looking up `k`: the new value if `k = k'`,
otherwise the old dictionary's answer. -/
theorem dictGet_dictSet (d : Record) (k k' : String) (v : PyVal) :
    dictGet (dictSet d k' v) k = if k = k' then some v else dictGet d k := by
  unfold dictGet dictSet
  by_cases hmem : d.any (fun p => p.1 == k') = true
  · rw [if_pos hmem]
    by_cases hk : k = k'
    · subst hk
      rw [find?_map_replace_self d k v hmem, if_pos rfl]
      rfl
    · rw [find?_map_replace d k k' v hk, if_neg hk]
  · rw [if_neg hmem, List.find?_append]
    by_cases hk : k = k'
    · subst hk
      have hnone : d.find? (fun p => p.1 == k) = none := by
        rw [List.find?_eq_none]
        intro p hp
        simp only [Bool.not_eq_true]
        by_contra hcon
        apply hmem
        rw [List.any_eq_true]
        refine ⟨p, hp, ?_⟩
        simpa using hcon
      simp [hnone]
    · have hk2 : ((k', v).1 == k) = false := by
        simp
        exact fun hh => hk hh.symm
      rw [if_neg hk]
      cases hd : d.find? (fun p => p.1 == k) <;> simp [hd, hk2]

/-- A successful `mapM` over `Option` is a pointwise success: the output
has the input's length and the i-th output comes from the i-th input. -/
theorem mapM_option_sound {α β : Type} (f : α → Option β) :
    ∀ (l : List α) (out : List β), l.mapM f = some out →
      out.length = l.length ∧
      ∀ i (h1 : i < l.length) (h2 : i < out.length),
        f (l.get ⟨i, h1⟩) = some (out.get ⟨i, h2⟩) := by
  intro l
  induction l with
  | nil =>
      intro out h
      rw [List.mapM_nil] at h
      cases h
      exact ⟨rfl, fun i h1 _ => absurd h1 (Nat.not_lt_zero i)⟩
  | cons a l ih =>
      intro out h
      rw [List.mapM_cons] at h
      cases hfa : f a with
      | none => rw [hfa] at h; simp at h
      | some b =>
          rw [hfa] at h
          cases hml : l.mapM f with
          | none => rw [hml] at h; simp at h
          | some bs =>
              rw [hml] at h
              simp at h
              subst h
              obtain ⟨hlen, hidx⟩ := ih bs hml
              refine ⟨by simp [hlen], ?_⟩
              intro i h1 h2
              cases i with
              | zero => simpa using hfa
              | succ j =>
                  simpa using hidx j (by simpa using h1) (by simpa using h2)

/-- `mapM` over `Option` succeeds when every element succeeds. -/
theorem mapM_option_isSome {α β : Type} (f : α → Option β) :
    ∀ l : List α, (∀ a ∈ l, (f a).isSome = true) →
      (l.mapM f).isSome = true := by
  intro l
  induction l with
  | nil => intro _; rw [List.mapM_nil]; rfl
  | cons a l ih =>
      intro h
      rw [List.mapM_cons]
      have ha := h a (List.mem_cons_self a l)
      cases hfa : f a with
      | none => rw [hfa] at ha; cases ha
      | some b =>
          have hl := ih (fun x hx => h x (List.mem_cons_of_mem a hx))
          cases hml : l.mapM f with
          | none => rw [hml] at hl; cases hl
          | some bs => simp [hfa, hml]

/-- A record with the four required, correctly-typed fields is annotated
without raising. -/
theorem annotate_item_isSome (r : Record)
    (h : hasRequiredFields r = true) : (annotate_item r).isSome = true := by
  unfold hasRequiredFields at h
  split at h
  · next d t s l heq1 heq2 heq3 heq4 =>
      unfold annotate_item
      rw [heq1, heq2, heq3, heq4]
      rfl
  · exact absurd h (by simp)

/-- C7 counterexample: an input record that already carries an
`annotation_method` field does not have it passed through unchanged —
`{**item, **annotations}` overwrites it with `"rule_based"`, refuting the
claim that all input fields survive unchanged. -/
theorem c7_counterexample :
    hasRequiredFields collidingRecord = true ∧
    dictGet collidingRecord "annotation_method" = some (.vStr "manual") ∧
    (annotate_dataset [collidingRecord]).map
        (fun out => out.map (fun r => dictGet r "annotation_method"))
      = some [some (.vStr "rule_based")] := by
  decide

/-- C7 (amended): on records with the four required fields,
`annotate_dataset` succeeds and yields exactly one output record per input
record in the same order, each produced from its own input record alone;
every input field whose name is not one of the five annotation field names
is passed through unchanged, the five annotation fields are present, and
`annotation_method` is the constant `"rule_based"` (overwriting any input
field of that name). -/
theorem c7_annotation_pipeline :
    (∀ records : List Record,
      (∀ r ∈ records, hasRequiredFields r = true) →
      (annotate_dataset records).isSome = true) ∧
    (∀ records out, annotate_dataset records = some out →
      out.length = records.length ∧
      ∀ i (h1 : i < records.length) (h2 : i < out.length),
        annotate_item (records.get ⟨i, h1⟩) = some (out.get ⟨i, h2⟩)) ∧
    (∀ item out, annotate_item item = some out →
      dictGet out "annotation_method" = some (.vStr "rule_based") ∧
      (∀ k, k ∉ annotation_field_names → dictGet out k = dictGet item k) ∧
      (∀ k ∈ annotation_field_names, (dictGet out k).isSome = true)) := by
  refine ⟨?_, ?_, ?_⟩
  · intro records h
    exact mapM_option_isSome annotate_item records
      (fun r hr => annotate_item_isSome r (h r hr))
  · intro records out h
    exact mapM_option_sound annotate_item records out h
  · intro item out h
    unfold annotate_item at h
    split at h
    · next d t s l heq1 heq2 heq3 heq4 =>
        replace h := Option.some.inj h
        subst h
        refine ⟨?_, ?_, ?_⟩
        · simp [dictMerge, dictGet_dictSet]
        · intro k hk
          simp only [annotation_field_names, List.mem_cons,
            List.not_mem_nil, or_false, not_or] at hk
          obtain ⟨h1, h2, h3, h4, h5⟩ := hk
          simp [dictMerge, dictGet_dictSet, h1, h2, h3, h4, h5]
        · intro k hk
          simp only [annotation_field_names, List.mem_cons,
            List.not_mem_nil, or_false] at hk
          rcases hk with rfl | rfl | rfl | rfl | rfl <;>
            simp [dictMerge, dictGet_dictSet]
    · cases h

/-- C7 witness: annotating a concrete well-formed record succeeds. -/
theorem c7_witness :
    (annotate_dataset [sampleRecord]).isSome = true :=
  c7_annotation_pipeline.1 [sampleRecord] (by decide)
